import Mathlib

/-!
Shallow embedding of the notebook editor toolbar layout strategies
(`notebookEditorToolbar.ts`) and of the notebook status bar service
(`notebookStatusBarServiceImpl.ts`).

Modelling conventions:
* JS numbers that hold pixel widths are modelled as `Int` (widths are added and
  compared, never divided, so no rounding concerns arise).
* The strategies mutate the shared `IActionModel` entities in place; the
  embedding passes the toolbar state explicitly: each `calculateActions`
  returns the updated state together with the `{primaryActions,
  secondaryActions}` result object.
* `primaryActions[primaryActions.length - 1]` on an empty array yields
  `undefined` in JS and the subsequent `.action` access throws a `TypeError`;
  the embedding returns `none` in exactly that situation, and `some` of the
  computed pair otherwise.
* `instanceof Separator` / `instanceof MenuItemAction` checks are modelled as
  boolean fields of the action descriptor.
-/

namespace NotebookToolbar

/-- An action descriptor (`IAction`).  Only what the layout code inspects is
modelled: the id string, whether the object is a `Separator` instance and
whether it is a `MenuItemAction` instance. -/
structure IAction where
  id : String
  isSeparator : Bool := false
  isMenuItemAction : Bool := false
deriving DecidableEq, Repr

/-- `const ICON_ONLY_ACTION_WIDTH = 21;` -/
def ICON_ONLY_ACTION_WIDTH : Int := 21

/-- `const TOGGLE_MORE_ACTION_WIDTH = 21;` -/
def TOGGLE_MORE_ACTION_WIDTH : Int := 21

/-- `const ACTION_PADDING = 8;` -/
def ACTION_PADDING : Int := 8

/-- `ToggleMenuAction.ID`, imported by the source from
`vs/base/browser/ui/toolbar/toolbar` (its upstream value is
`'toolbar.toggle.more'`).  The layout code only ever compares action ids
against this constant. -/
def ToggleMenuAction.ID : String := "toolbar.toggle.more"

/-- `SELECT_KERNEL_ID`, imported by the source from the notebook
`coreActions` module (upstream value `'notebook.selectKernel'`); only used in
id comparisons. -/
def SELECT_KERNEL_ID : String := "notebook.selectKernel"

/-- The well-known id hard-coded in `_calcuateWithAlllabelsHidden`. -/
def insertMarkdownCellBelowID : String := "notebook.cell.insertMarkdownCellBelow"

/-- `interface IActionModel { action; size; visible; renderLabel }`. -/
structure IActionModel where
  action : IAction
  size : Int
  visible : Bool
  renderLabel : Bool
deriving DecidableEq, Repr

/-- The slice of `NotebookEditorToolbar` state that the strategies read and
write: `_primaryActions` (the cached action models) and `_secondaryActions`. -/
structure ToolbarState where
  primaryActions : List IActionModel
  secondaryActions : List IAction
deriving DecidableEq, Repr

/-- The `{ primaryActions; secondaryActions }` object returned by
`calculateActions`. -/
structure CalcResult where
  primaryActions : List IAction
  secondaryActions : List IAction
deriving DecidableEq, Repr

/-- `primaryActions[primaryActions.length - 1].action.id === ToggleMenuAction.ID`
(for a non-empty list; the strategies never evaluate this on an empty one). -/
def hasToggleMoreAction (l : List IActionModel) : Bool :=
  match l.getLast? with
  | some lastItemInLeft => lastItemInLeft.action.id == ToggleMenuAction.ID
  | none => false

/-- The candidate prefix the strategies walk:
`primaryActions.slice(0, primaryActions.length - (hasToggleMoreAction ? 1 : 0))`. -/
def toolbarCandidates (l : List IActionModel) : List IActionModel :=
  l.take (l.length - (if hasToggleMoreAction l then 1 else 0))

/-- The greedy fit loop of `FixedLabelStrategy._calculateFixedActions`:
starting from accumulated width `size`, count how many of the given action
models fit; `if (size + itemSize <= max) { size += ACTION_PADDING + itemSize;
push } else break`. -/
def fixedFitCount : List IActionModel → Int → Int → Nat
  | [], _, _ => 0
  | actionModel :: rest, size, leftToolbarContainerMaxWidth =>
    if size + actionModel.size ≤ leftToolbarContainerMaxWidth then
      fixedFitCount rest (size + ACTION_PADDING + actionModel.size) leftToolbarContainerMaxWidth + 1
    else 0

/-- The tail of `_calculateFixedActions` once the fitted count `k` is known:
the first `k` models are marked visible, the rest invisible, and the result
object is assembled from the mutated models. -/
def fixedApply (tb : ToolbarState) (k : Nat) : ToolbarState × CalcResult :=
  let actionsV := (tb.primaryActions.take k).map (fun a => { a with visible := true })
  let restV := (tb.primaryActions.drop k).map (fun a => { a with visible := false })
  ({ tb with primaryActions := actionsV ++ restV },
   { primaryActions :=
       (actionsV.filter (fun a => a.visible && a.action.id != ToggleMenuAction.ID)).map (·.action),
     secondaryActions :=
       (restV.filter (fun a => !a.visible && a.action.id != ToggleMenuAction.ID)).map (·.action)
         ++ tb.secondaryActions })

/-- `FixedLabelStrategy._calculateFixedActions` (also used unchanged by
`FixedLabellessStrategy`): `none` models the `TypeError` thrown on an empty
`primaryActions` array. -/
def calculateFixedActions (tb : ToolbarState) (w : Int) : Option (ToolbarState × CalcResult) :=
  match tb.primaryActions.getLast? with
  | none => none
  | some _ => some (fixedApply tb (fixedFitCount (toolbarCandidates tb.primaryActions) 0 w))

/-- `FixedLabelStrategy.calculateActions` simply delegates. -/
def FixedLabelStrategy.calculateActions : ToolbarState → Int → Option (ToolbarState × CalcResult) :=
  calculateFixedActions

/-- `FixedLabellessStrategy` inherits `calculateActions` from
`FixedLabelStrategy` unchanged. -/
def FixedLabellessStrategy.calculateActions : ToolbarState → Int → Option (ToolbarState × CalcResult) :=
  calculateFixedActions

/-- `actions.map(a => a.size).reduce((a, b) => a + b, 0) +
(actions.length - 1) * ACTION_PADDING`. -/
def totalWidthWithLabels (actions : List IActionModel) : Int :=
  (actions.map (·.size)).foldl (· + ·) 0 + ((actions.length : Int) - 1) * ACTION_PADDING

/-- The breakpoint scan of `DynamicLabelStrategy.calculateActions`: walk the
actions accumulating `sum += actions[i].size + ACTION_PADDING`; at every
`Separator` test whether the labeled prefix plus an icon-only rendering of the
remainder fits, and remember the latest index for which it does.  `i` is the
current index and `acc` the `lastActionWithLabel` accumulator (initially -1).
The source also pushes each partial sum onto a `sums` array that is never read
afterwards; it is omitted here. -/
def breakpointGo (w : Int) : List IActionModel → Int → Int → Int → Int
  | [], _, _, acc => acc
  | a :: rest, sum, i, acc =>
    let sum2 := sum + a.size + ACTION_PADDING
    let acc2 :=
      if a.action.isSeparator then
        let remainingCount : Int := rest.length
        let newTotalSum := sum2 +
          (if remainingCount = 0 then 0
           else remainingCount * ICON_ONLY_ACTION_WIDTH + (remainingCount - 1) * ACTION_PADDING)
        if newTotalSum ≤ w then i else acc
      else acc
    breakpointGo w rest sum2 (i + 1) acc2

/-- `lastActionWithLabel` after the scan loop. -/
def breakpointSearch (actions : List IActionModel) (w : Int) : Int :=
  breakpointGo w actions 0 0 (-1)

/-- The fit walk of `DynamicLabelStrategy._calcuateWithAlllabelsHidden`: the
`insertMarkdownCellBelow` action is pushed and `continue`d without any width
check and without touching the running total; every other action costs
`ICON_ONLY_ACTION_WIDTH` and the walk breaks at the first one that does not
fit.  Returns the length of `renderActions`. -/
def hiddenFitCount : List IActionModel → Int → Int → Nat
  | [], _, _ => 0
  | actionModel :: rest, size, leftToolbarContainerMaxWidth =>
    if actionModel.action.id == insertMarkdownCellBelowID then
      hiddenFitCount rest size leftToolbarContainerMaxWidth + 1
    else if size + ICON_ONLY_ACTION_WIDTH ≤ leftToolbarContainerMaxWidth then
      hiddenFitCount rest (size + ACTION_PADDING + ICON_ONLY_ACTION_WIDTH) leftToolbarContainerMaxWidth + 1
    else 0

/-- `DynamicLabelStrategy._calcuateWithAlllabelsHidden` (source spelling kept).
All models lose their labels; the first `k` (the walked `renderActions`)
become visible except the `insertMarkdownCellBelow` ones, which are forced
invisible; every model past `k` becomes invisible.  Note the result's
secondary list slices the mutated `primaryActions` from `actions.length`
(the candidate count), not from `renderActions.length`. -/
def calcuateWithAlllabelsHidden (tb : ToolbarState) (actions : List IActionModel) (w : Int) :
    ToolbarState × CalcResult :=
  let k := hiddenFitCount actions 0 w
  let renderActionsV := (tb.primaryActions.take k).map
    (fun a => { a with renderLabel := false,
                       visible := a.action.id != insertMarkdownCellBelowID })
  let restV := (tb.primaryActions.drop k).map
    (fun a => { a with renderLabel := false, visible := false })
  let newPrimary := renderActionsV ++ restV
  ({ tb with primaryActions := newPrimary },
   { primaryActions :=
       (renderActionsV.filter (fun a => a.visible && a.action.id != ToggleMenuAction.ID)).map (·.action),
     secondaryActions :=
       ((newPrimary.drop actions.length).filter
          (fun a => !a.visible && a.action.id != ToggleMenuAction.ID)).map (·.action)
         ++ tb.secondaryActions })

/-- The `actions.length === 0` early return of
`DynamicLabelStrategy.calculateActions`: no mutation, the result is read from
the current `visible` flags. -/
def dynEmptyBranch (tb : ToolbarState) : ToolbarState × CalcResult :=
  (tb,
   { primaryActions :=
       (tb.primaryActions.filter (fun a => a.visible && a.action.id != ToggleMenuAction.ID)).map (·.action),
     secondaryActions := tb.secondaryActions })

/-- The `totalWidthWithLabels <= maxWidth` branch: every model (the trailing
sentinel included) becomes visible with its label. -/
def dynAllFitBranch (tb : ToolbarState) : ToolbarState × CalcResult :=
  let newPrimary := tb.primaryActions.map (fun a => { a with visible := true, renderLabel := true })
  ({ tb with primaryActions := newPrimary },
   { primaryActions :=
       (newPrimary.filter (fun a => a.visible && a.action.id != ToggleMenuAction.ID)).map (·.action),
     secondaryActions := tb.secondaryActions })

/-- The breakpoint-found branch: the first `m = lastActionWithLabel + 1`
models keep their labels, everything after stays visible icon-only. -/
def dynBreakpointBranch (tb : ToolbarState) (m : Nat) : ToolbarState × CalcResult :=
  let newPrimary :=
    (tb.primaryActions.take m).map (fun a => { a with visible := true, renderLabel := true })
      ++ (tb.primaryActions.drop m).map (fun a => { a with visible := true, renderLabel := false })
  ({ tb with primaryActions := newPrimary },
   { primaryActions :=
       (newPrimary.filter (fun a => a.visible && a.action.id != ToggleMenuAction.ID)).map (·.action),
     secondaryActions := tb.secondaryActions })

/-- `DynamicLabelStrategy.calculateActions`.  `none` models the `TypeError`
thrown by `primaryActions[primaryActions.length - 1].action` on an empty
array; the branch structure mirrors the source line by line. -/
def dynCalculateActions (tb : ToolbarState) (w : Int) : Option (ToolbarState × CalcResult) :=
  match tb.primaryActions.getLast? with
  | none => none
  | some _ =>
    let actions := toolbarCandidates tb.primaryActions
    if actions.length = 0 then some (dynEmptyBranch tb)
    else if totalWidthWithLabels actions ≤ w then some (dynAllFitBranch tb)
    else if (actions.length : Int) * ICON_ONLY_ACTION_WIDTH
              + ((actions.length : Int) - 1) * ACTION_PADDING > w then
      some (calcuateWithAlllabelsHidden tb actions w)
    else if breakpointSearch actions w < 0 then
      some (calcuateWithAlllabelsHidden tb actions w)
    else
      some (dynBreakpointBranch tb (breakpointSearch actions w + 1).toNat)

/-- The guard in `NotebookEditorToolbar._computeSizes` that protects the
strategy call: `if (this._primaryActions.length === 0) { return; }` — the
strategy is only consulted for a non-empty cached action list. -/
def computeSizesGuard (strat : ToolbarState → Int → Option (ToolbarState × CalcResult))
    (tb : ToolbarState) (w : Int) : Option (ToolbarState × CalcResult) :=
  if tb.primaryActions.length = 0 then none else strat tb w

/-- The view-item kinds an `actionProvider` can produce (named after the
classes instantiated by the source; `undefinedView` models returning
`undefined`). -/
inductive ViewKind where
  | notebookKernelActionViewItem
  | actionViewWithLabel
  | menuEntryActionViewItem
  | undefinedView
deriving DecidableEq, Repr

/-- `FixedLabelStrategy.actionProvider`. -/
def FixedLabelStrategy.actionProvider (tb : ToolbarState) (action : IAction) : ViewKind :=
  if action.id == SELECT_KERNEL_ID then .notebookKernelActionViewItem
  else
    match tb.primaryActions.find? (fun a => a.action.id == action.id) with
    | some a =>
      if a.renderLabel then
        (if action.isMenuItemAction then .actionViewWithLabel else .undefinedView)
      else
        (if action.isMenuItemAction then .menuEntryActionViewItem else .undefinedView)
    | none => if action.isMenuItemAction then .menuEntryActionViewItem else .undefinedView

/-- `FixedLabellessStrategy.actionProvider` (the override): ordinary actions
never get the labeled view; the toolbar state is not consulted at all. -/
def FixedLabellessStrategy.actionProvider (_tb : ToolbarState) (action : IAction) : ViewKind :=
  if action.id == SELECT_KERNEL_ID then .notebookKernelActionViewItem
  else if action.isMenuItemAction then .menuEntryActionViewItem else .undefinedView

/-- A notebook status bar item; only an identifying payload is needed. -/
structure INotebookStatusBarItem where
  text : String
deriving DecidableEq, Repr

/-- `INotebookStatusBarItemList` (the `{ items }` result object). -/
structure INotebookStatusBarItemList where
  items : List INotebookStatusBarItem
deriving DecidableEq, Repr

/-- Outcome of one `provideStatusBarItems(docUri, token)` call: the promise
resolves with a list, resolves with `undefined`/`null`, or rejects (the call
throws). -/
inductive ProvideOutcome where
  | resolved (value : Option INotebookStatusBarItemList)
  | rejected
deriving DecidableEq, Repr

/-- A registered `INotebookStatusBarItemProvider`: its `viewType` and its
`provideStatusBarItems` behaviour (the opaque cancellation token argument is
elided; it is only passed through). -/
structure INotebookStatusBarItemProvider where
  viewType : String
  provideStatusBarItems : String → ProvideOutcome

/-- Body of the per-provider lambda in `getStatusBarItemsForDocument`:
`try { return await p.provideStatusBarItems(docUri, token) ?? { items: [] }; }
catch (e) { onUnexpectedExternalError(e); return { items: [] }; }`. -/
def provideForDocument (p : INotebookStatusBarItemProvider) (docUri : String) :
    INotebookStatusBarItemList :=
  match p.provideStatusBarItems docUri with
  | .resolved (some value) => value
  | .resolved none => { items := [] }
  | .rejected => { items := [] }

/-- `NotebookStatusBarService.getStatusBarItemsForDocument`, with the
service's `_providers` array passed explicitly (in registration order).
`Promise.all` preserves order, so the embedding is an ordered map. -/
def getStatusBarItemsForDocument (providers : List INotebookStatusBarItemProvider)
    (docUri viewType : String) : List INotebookStatusBarItemList :=
  let consulted := providers.filter (fun p => p.viewType == viewType || p.viewType == "*")
  consulted.map (fun p => provideForDocument p docUri)

/-! ### Vocabulary used by the theorem statements -/

/-- Number of primary actions returned by a strategy call (0 for the
`TypeError` case, which returns nothing at all). -/
def primCount : Option (ToolbarState × CalcResult) → Nat
  | none => 0
  | some x => x.2.primaryActions.length

/-- Neither output list of a result object mentions the toggle-more id. -/
def sentinelFree (r : CalcResult) : Prop :=
  (∀ a ∈ r.primaryActions, a.id ≠ ToggleMenuAction.ID) ∧
    (∀ a ∈ r.secondaryActions, a.id ≠ ToggleMenuAction.ID)

/-- `sentinelFree` lifted over the optional strategy result. -/
def optSentinelFree : Option (ToolbarState × CalcResult) → Prop
  | none => True
  | some x => sentinelFree x.2

/-- Calling a strategy a second time, on the toolbar state mutated by a first
call at the same width, reproduces the first partition. -/
def idempotentAt (strat : ToolbarState → Int → Option (ToolbarState × CalcResult))
    (tb : ToolbarState) (w : Int) : Prop :=
  match strat tb w with
  | none => True
  | some x => (strat x.1 w).map (fun y => y.2) = some x.2

/-- The part of an action model the strategies never overwrite: its action
descriptor and its measured size. -/
def modelKey (a : IActionModel) : IAction × Int := (a.action, a.size)

/-! ### Concrete inputs used by witnesses and counterexamples -/

/-- A fresh labeled action model, as built by `_cacheItemSizes`. -/
def mkModel (i : String) (sz : Int) : IActionModel :=
  { action := { id := i }, size := sz, visible := true, renderLabel := true }

def tbW1 : ToolbarState :=
  { primaryActions := [mkModel "w1.a" 10, mkModel "w1.b" 20], secondaryActions := [] }

def tbW2 : ToolbarState :=
  { primaryActions := [mkModel "w2.a" 30, mkModel ToggleMenuAction.ID 21],
    secondaryActions := [] }

def tbC3 : ToolbarState :=
  { primaryActions := [mkModel "c3.a1" 50, mkModel "c3.a2" 50], secondaryActions := [] }

def tbC4 : ToolbarState :=
  { primaryActions := [mkModel "c4.big" 50, mkModel insertMarkdownCellBelowID 50],
    secondaryActions := [] }

def tbW4 : ToolbarState :=
  { primaryActions := [mkModel insertMarkdownCellBelowID 50], secondaryActions := [] }

def tbW4b : ToolbarState :=
  { primaryActions := [mkModel "w4.plain" 10], secondaryActions := [] }

def tbW5empty : ToolbarState := { primaryActions := [], secondaryActions := [] }

def tbW5 : ToolbarState :=
  { primaryActions := [mkModel "w5.a" 7], secondaryActions := [] }

def tbW6 : ToolbarState :=
  { primaryActions := [mkModel "w6.a" 40, mkModel "w6.b" 50], secondaryActions := [] }

def actW8 : IAction := { id := "w8.cmd", isMenuItemAction := true }

def kernelActW8 : IAction := { id := SELECT_KERNEL_ID }

def itemW9 : INotebookStatusBarItem := { text := "w9.item" }

def provW9ok : INotebookStatusBarItemProvider :=
  { viewType := "w9.vt", provideStatusBarItems := fun _ => .resolved (some { items := [itemW9] }) }

def provW9bad : INotebookStatusBarItemProvider :=
  { viewType := "w9.vt", provideStatusBarItems := fun _ => .rejected }

def provW10star : INotebookStatusBarItemProvider :=
  { viewType := "*", provideStatusBarItems := fun _ => .resolved (some { items := [itemW9] }) }

def provW10other : INotebookStatusBarItemProvider :=
  { viewType := "w10.other", provideStatusBarItems := fun _ => .resolved (some { items := [itemW9] }) }

def provW9none : INotebookStatusBarItemProvider :=
  { viewType := "w9.vt", provideStatusBarItems := fun _ => .resolved none }

def tbW8 : ToolbarState := { primaryActions := [], secondaryActions := [] }

/-! ## Helper lemmas -/

theorem length_filter_le_of_imp {α : Type} (p q : α → Bool)
    (h : ∀ a, p a = true → q a = true) :
    ∀ l : List α, (l.filter p).length ≤ (l.filter q).length := by
  intro l
  induction l with
  | nil => simp
  | cons a l ih =>
    by_cases hp : p a
    · have hq := h a hp
      simp only [List.filter_cons, hp, hq, if_true, List.length_cons]
      omega
    · simp only [List.filter_cons, hp, if_false, Bool.false_eq_true]
      by_cases hq : q a <;> simp only [hq, if_true, if_false, Bool.false_eq_true, List.length_cons] <;> omega

theorem length_filter_take_mono {α : Type} (p : α → Bool) (l : List α) {k k' : Nat}
    (h : k ≤ k') : ((l.take k).filter p).length ≤ ((l.take k').filter p).length := by
  have h1 : l.take k = (l.take k').take k := by
    rw [List.take_take, Nat.min_eq_left h]
  rw [h1]
  exact ((List.take_sublist _ _).filter p).length_le

theorem length_filter_take_le {α : Type} (p : α → Bool) (l : List α) (k : Nat) :
    ((l.take k).filter p).length ≤ (l.filter p).length :=
  ((List.take_sublist _ _).filter p).length_le

theorem mem_filtered_map_ne_toggle (l : List IActionModel) (p : IActionModel → Bool) (x : IAction)
    (hx : x ∈ (l.filter (fun a => p a && a.action.id != ToggleMenuAction.ID)).map (·.action)) :
    x.id ≠ ToggleMenuAction.ID := by
  obtain ⟨a, ha, rfl⟩ := List.mem_map.1 hx
  have hf := (List.mem_filter.1 ha).2
  rw [Bool.and_eq_true] at hf
  simpa [bne_iff_ne] using hf.2

theorem drop_length_sub_one {α : Type} :
    ∀ (l : List α) (h : l ≠ []), l.drop (l.length - 1) = [l.getLast h]
  | [a], _ => rfl
  | a :: b :: t, _ => by
    have ih := drop_length_sub_one (b :: t) (by simp)
    have hlen : (a :: b :: t).length - 1 = t.length + 1 := by simp
    have hlen2 : (b :: t).length - 1 = t.length := by simp
    rw [hlen, List.drop_succ_cons]
    rw [hlen2] at ih
    rw [ih]
    rfl

theorem foldl_add_le (l : List Int) (h : ∀ x ∈ l, 1 ≤ x) :
    ∀ s : Int, s + l.length ≤ l.foldl (· + ·) s := by
  induction l with
  | nil => intro s; simp
  | cons a l ih =>
    intro s
    have ha : 1 ≤ a := h a (List.mem_cons_self _ _)
    have := ih (fun x hx => h x (List.mem_cons_of_mem _ hx)) (s + a)
    simp only [List.foldl_cons, List.length_cons]
    push_cast
    omega

/-- Equation lemma: the fixed strategies on a non-empty primary list. -/
theorem calculateFixedActions_of_ne (tb : ToolbarState) (w : Int)
    (h : tb.primaryActions ≠ []) :
    calculateFixedActions tb w
      = some (fixedApply tb (fixedFitCount (toolbarCandidates tb.primaryActions) 0 w)) := by
  rw [calculateFixedActions, List.getLast?_eq_getLast _ h]

/-- Equation lemma: the fixed strategies on an empty primary list throw. -/
theorem calculateFixedActions_of_nil (tb : ToolbarState) (w : Int)
    (h : tb.primaryActions = []) : calculateFixedActions tb w = none := by
  rw [calculateFixedActions, h]
  rfl

/-- Equation lemma: the dynamic strategy on a non-empty primary list. -/
theorem dynCalculateActions_of_ne (tb : ToolbarState) (w : Int)
    (h : tb.primaryActions ≠ []) :
    dynCalculateActions tb w
      = (if (toolbarCandidates tb.primaryActions).length = 0 then some (dynEmptyBranch tb)
         else if totalWidthWithLabels (toolbarCandidates tb.primaryActions) ≤ w then
           some (dynAllFitBranch tb)
         else if ((toolbarCandidates tb.primaryActions).length : Int) * ICON_ONLY_ACTION_WIDTH
                   + (((toolbarCandidates tb.primaryActions).length : Int) - 1) * ACTION_PADDING
                   > w then
           some (calcuateWithAlllabelsHidden tb (toolbarCandidates tb.primaryActions) w)
         else if breakpointSearch (toolbarCandidates tb.primaryActions) w < 0 then
           some (calcuateWithAlllabelsHidden tb (toolbarCandidates tb.primaryActions) w)
         else
           some (dynBreakpointBranch tb
             (breakpointSearch (toolbarCandidates tb.primaryActions) w + 1).toNat)) := by
  rw [dynCalculateActions, List.getLast?_eq_getLast _ h]

/-- Equation lemma: the dynamic strategy on an empty primary list throws. -/
theorem dynCalculateActions_of_nil (tb : ToolbarState) (w : Int)
    (h : tb.primaryActions = []) : dynCalculateActions tb w = none := by
  rw [dynCalculateActions, h]
  rfl

/-- A toolbar whose last primary action is the sentinel is non-empty. -/
theorem ne_nil_of_hasToggle {l : List IActionModel} (h : hasToggleMoreAction l = true) :
    l ≠ [] := by
  intro hnil
  rw [hnil] at h
  simp [hasToggleMoreAction] at h

/-- Filtering the whole primary list with a predicate that rejects the
sentinel id gives the same as filtering just the candidate prefix: the only
action beyond the prefix is the trailing sentinel. -/
theorem filter_eq_filter_candidates (l : List IActionModel) (h : l ≠ [])
    (Q : IActionModel → Bool) (hQ : ∀ a, a.action.id = ToggleMenuAction.ID → Q a = false) :
    l.filter Q = (toolbarCandidates l).filter Q := by
  have hstep : l.filter Q
      = (toolbarCandidates l).filter Q
        ++ (l.drop (l.length - (if hasToggleMoreAction l then 1 else 0))).filter Q := by
    conv_lhs =>
      rw [← List.take_append_drop (l.length - (if hasToggleMoreAction l then 1 else 0)) l]
    rw [List.filter_append]
    rfl
  rw [hstep]
  cases htog : hasToggleMoreAction l with
  | false => simp [htog, List.drop_length]
  | true =>
    have hlast : (l.getLast h).action.id = ToggleMenuAction.ID := by
      have h2 := htog
      unfold hasToggleMoreAction at h2
      rw [List.getLast?_eq_getLast l h] at h2
      simpa [beq_iff_eq] using h2
    simp only [htog, if_true]
    rw [drop_length_sub_one l h]
    simp [List.filter_cons, hQ _ hlast]

/-- Main rewriting engine: a filter-then-project over freshly overwritten
models reduces to a filter over the original models, as long as the override
preserves the action descriptor. -/
theorem filter_map_override (f : IActionModel → IActionModel) (Q Q' : IActionModel → Bool)
    (hQ : ∀ a, Q (f a) = Q' a) (hact : ∀ a, (f a).action = a.action) :
    ∀ P : List IActionModel,
      ((P.map f).filter Q).map (·.action) = (P.filter Q').map (·.action) := by
  intro P
  induction P with
  | nil => rfl
  | cons a P ih =>
    simp only [List.map_cons, List.filter_cons, hQ]
    by_cases hqa : Q' a = true
    · rw [if_pos hqa, if_pos hqa]
      simp only [List.map_cons, ih, hact]
    · rw [if_neg hqa, if_neg hqa]
      exact ih

/-- Both output lists of a result object built by filtering against the
sentinel id, with arbitrary sentinel-free pre-existing secondary actions, are
sentinel free. -/
theorem sentinelFree_mk (P1 P2 : List IActionModel) (p1 p2 : IActionModel → Bool)
    (sec : List IAction) (hsec : ∀ b ∈ sec, b.id ≠ ToggleMenuAction.ID) :
    sentinelFree
      { primaryActions :=
          (P1.filter (fun a => p1 a && a.action.id != ToggleMenuAction.ID)).map (·.action),
        secondaryActions :=
          (P2.filter (fun a => p2 a && a.action.id != ToggleMenuAction.ID)).map (·.action)
            ++ sec } := by
  constructor
  · intro a ha
    exact mem_filtered_map_ne_toggle P1 p1 a ha
  · intro a ha
    rcases List.mem_append.1 ha with h | h
    · exact mem_filtered_map_ne_toggle P2 p2 a h
    · exact hsec a h

/-- Variant of `sentinelFree_mk` for the branches that return the pre-existing
secondary list unchanged. -/
theorem sentinelFree_mk' (P1 : List IActionModel) (p1 : IActionModel → Bool)
    (sec : List IAction) (hsec : ∀ b ∈ sec, b.id ≠ ToggleMenuAction.ID) :
    sentinelFree
      { primaryActions :=
          (P1.filter (fun a => p1 a && a.action.id != ToggleMenuAction.ID)).map (·.action),
        secondaryActions := sec } := by
  constructor
  · intro a ha
    exact mem_filtered_map_ne_toggle P1 p1 a ha
  · intro a ha
    exact hsec a ha

/-! ## Claim theorems -/

/-- C8: for every toolbar state and every action whose id is not
`SELECT_KERNEL_ID`, `FixedLabellessStrategy.actionProvider` never produces the
labeled view kind (`ActionViewWithLabel`), regardless of any `renderLabel`
bookkeeping held in the toolbar state; an action with the kernel-picker id
always maps to the dedicated `NotebookKernelActionViewItem`. -/
theorem C8_labelless_never_labeled (tb : ToolbarState) (a : IAction) :
    (a.id ≠ SELECT_KERNEL_ID →
      FixedLabellessStrategy.actionProvider tb a ≠ ViewKind.actionViewWithLabel) ∧
    (a.id = SELECT_KERNEL_ID →
      FixedLabellessStrategy.actionProvider tb a = ViewKind.notebookKernelActionViewItem) := by
  constructor
  · intro hne
    unfold FixedLabellessStrategy.actionProvider
    have hbeq : (a.id == SELECT_KERNEL_ID) = false := by
      simpa [beq_iff_eq] using hne
    rw [hbeq]
    by_cases hm : a.isMenuItemAction <;> simp [hm]
  · intro heq
    unfold FixedLabellessStrategy.actionProvider
    have hbeq : (a.id == SELECT_KERNEL_ID) = true := by simpa [beq_iff_eq] using heq
    rw [hbeq]
    rfl

theorem C8_witness :
    FixedLabellessStrategy.actionProvider tbW8 actW8 ≠ ViewKind.actionViewWithLabel ∧
    FixedLabellessStrategy.actionProvider tbW8 kernelActW8
      = ViewKind.notebookKernelActionViewItem :=
  ⟨(C8_labelless_never_labeled tbW8 actW8).1 (by decide),
   (C8_labelless_never_labeled tbW8 kernelActW8).2 (by decide)⟩

/-- C9: `getStatusBarItemsForDocument` returns one result entry per consulted
provider (first conjunct); each consulted provider contributes exactly its own
slot, leaving the entries of the providers registered before and after it
untouched (second conjunct); a provider whose call rejects, or resolves to
`undefined`, contributes `{items := []}` in its slot (third and fourth
conjuncts). -/
theorem C9_provider_failure_isolated
    (providers l1 l2 : List INotebookStatusBarItemProvider)
    (p : INotebookStatusBarItemProvider) (docUri viewType : String)
    (hmatch : (p.viewType == viewType || p.viewType == "*") = true) :
    (getStatusBarItemsForDocument providers docUri viewType).length
      = (providers.filter (fun q => q.viewType == viewType || q.viewType == "*")).length ∧
    getStatusBarItemsForDocument (l1 ++ p :: l2) docUri viewType
      = getStatusBarItemsForDocument l1 docUri viewType
          ++ provideForDocument p docUri :: getStatusBarItemsForDocument l2 docUri viewType ∧
    (p.provideStatusBarItems docUri = .rejected →
      getStatusBarItemsForDocument (l1 ++ p :: l2) docUri viewType
        = getStatusBarItemsForDocument l1 docUri viewType
            ++ { items := [] } :: getStatusBarItemsForDocument l2 docUri viewType) ∧
    (p.provideStatusBarItems docUri = .resolved none →
      getStatusBarItemsForDocument (l1 ++ p :: l2) docUri viewType
        = getStatusBarItemsForDocument l1 docUri viewType
            ++ { items := [] } :: getStatusBarItemsForDocument l2 docUri viewType) := by
  have hsplit : getStatusBarItemsForDocument (l1 ++ p :: l2) docUri viewType
      = getStatusBarItemsForDocument l1 docUri viewType
          ++ provideForDocument p docUri :: getStatusBarItemsForDocument l2 docUri viewType := by
    unfold getStatusBarItemsForDocument
    rw [List.filter_append, List.filter_cons, hmatch]
    simp
  refine ⟨by simp [getStatusBarItemsForDocument], hsplit, ?_, ?_⟩
  · intro hrej
    rw [hsplit]
    have : provideForDocument p docUri = { items := [] } := by
      unfold provideForDocument
      rw [hrej]
    rw [this]
  · intro hnone
    rw [hsplit]
    have : provideForDocument p docUri = { items := [] } := by
      unfold provideForDocument
      rw [hnone]
    rw [this]

theorem C9_witness :
    (getStatusBarItemsForDocument [provW9ok, provW9bad] "doc" "w9.vt").length
      = ([provW9ok, provW9bad].filter
          (fun q => q.viewType == "w9.vt" || q.viewType == "*")).length ∧
    getStatusBarItemsForDocument ([provW9ok] ++ provW9bad :: []) "doc" "w9.vt"
      = getStatusBarItemsForDocument [provW9ok] "doc" "w9.vt"
          ++ { items := [] } :: getStatusBarItemsForDocument [] "doc" "w9.vt" ∧
    getStatusBarItemsForDocument ([provW9ok] ++ provW9none :: []) "doc" "w9.vt"
      = getStatusBarItemsForDocument [provW9ok] "doc" "w9.vt"
          ++ { items := [] } :: getStatusBarItemsForDocument [] "doc" "w9.vt" :=
  ⟨(C9_provider_failure_isolated [provW9ok, provW9bad] [provW9ok] [] provW9bad "doc" "w9.vt"
      (by decide)).1,
   (C9_provider_failure_isolated [provW9ok, provW9bad] [provW9ok] [] provW9bad "doc" "w9.vt"
      (by decide)).2.2.1 rfl,
   (C9_provider_failure_isolated [provW9ok, provW9none] [provW9ok] [] provW9none "doc" "w9.vt"
      (by decide)).2.2.2 rfl⟩

/-- C10: `getStatusBarItemsForDocument` consults exactly the providers whose
`viewType` equals the document's `viewType` or is the wildcard `"*"`, in
registration order.  A provider with any other `viewType` contributes no entry
(removing it leaves the result unchanged, first conjunct); a matching provider
contributes exactly its own slot (second conjunct); and the result decomposes
along the registration order (third conjunct). -/
theorem C10_viewtype_selection
    (l1 l2 : List INotebookStatusBarItemProvider)
    (p : INotebookStatusBarItemProvider) (docUri viewType : String) :
    (¬ (p.viewType = viewType ∨ p.viewType = "*") →
      getStatusBarItemsForDocument (l1 ++ p :: l2) docUri viewType
        = getStatusBarItemsForDocument (l1 ++ l2) docUri viewType) ∧
    ((p.viewType = viewType ∨ p.viewType = "*") →
      getStatusBarItemsForDocument (l1 ++ p :: l2) docUri viewType
        = getStatusBarItemsForDocument l1 docUri viewType
            ++ provideForDocument p docUri :: getStatusBarItemsForDocument l2 docUri viewType) ∧
    getStatusBarItemsForDocument (l1 ++ l2) docUri viewType
      = getStatusBarItemsForDocument l1 docUri viewType
          ++ getStatusBarItemsForDocument l2 docUri viewType := by
  refine ⟨?_, ?_, ?_⟩
  · intro hne
    have hmatch : (p.viewType == viewType || p.viewType == "*") = false := by
      rw [Bool.or_eq_false_iff]
      constructor <;> simp only [beq_eq_false_iff_ne, ne_eq] <;> intro h <;>
        exact hne (by simp [h])
    unfold getStatusBarItemsForDocument
    rw [List.filter_append, List.filter_cons, hmatch]
    simp
  · intro hor
    have hmatch : (p.viewType == viewType || p.viewType == "*") = true := by
      rcases hor with h | h <;> simp [h]
    unfold getStatusBarItemsForDocument
    rw [List.filter_append, List.filter_cons, hmatch]
    simp
  · unfold getStatusBarItemsForDocument
    rw [List.filter_append]
    simp

/-- C3 (evaluation of the code at the failing input): with two ordinary
actions of size 50 and a budget of 21, the dynamic strategy takes the
full-degrade path, only the first action fits, and yet the returned
`secondaryActions` list is empty — the non-fitting second action is dropped
from both outputs instead of being prepended to the pre-existing secondary
actions as the claim states.  The cause is that the result's secondary slice
starts at `actions.length` (the candidate count) instead of
`renderActions.length` (the fitted count). -/
theorem C3_full_degrade_drops_overflow :
    dynCalculateActions tbC3 21
      = some (calcuateWithAlllabelsHidden tbC3 (toolbarCandidates tbC3.primaryActions) 21) ∧
    hiddenFitCount (toolbarCandidates tbC3.primaryActions) 0 21 = 1 ∧
    (dynCalculateActions tbC3 21).map (fun x => x.2.primaryActions)
      = some [{ id := "c3.a1" }] ∧
    (dynCalculateActions tbC3 21).map (fun x => x.2.secondaryActions) = some [] := by
  refine ⟨by decide, by decide, by decide, by decide⟩

/-- C4 (counterexample): the claim asserts that for *every* action list that
contains the `insertMarkdownCellBelow` action and *every* budget, the action
is included in the fit walk.  At `tbC4` (a size-50 ordinary action followed by
the markdown action) with budget 0, the full-degrade path is taken, the walk
breaks on the first action, and the markdown action is never reached — it is
not part of the walked `renderActions` prefix. -/
theorem C4_counterexample :
    dynCalculateActions tbC4 0
      = some (calcuateWithAlllabelsHidden tbC4 (toolbarCandidates tbC4.primaryActions) 0) ∧
    (∃ a ∈ tbC4.primaryActions, a.action.id = insertMarkdownCellBelowID) ∧
    ¬ (∃ a ∈ (toolbarCandidates tbC4.primaryActions).take
          (hiddenFitCount (toolbarCandidates tbC4.primaryActions) 0 0),
        a.action.id = insertMarkdownCellBelowID) := by
  refine ⟨by decide, by decide, by decide⟩

/-- C4 (amended): in the full-degrade path, the `insertMarkdownCellBelow`
action (1) is pushed into the fitted set with the running total unchanged and
without any width check whenever the walk reaches it — so it never contributes
width; (2) every model with that id ends with `visible = false` in the mutated
toolbar state regardless of whether it was walked; (3) it never appears in the
returned primary list, so it never consumes bar space. -/
theorem C4_markdown_quirk :
    (∀ (a : IActionModel) (rest : List IActionModel) (s w : Int),
      a.action.id = insertMarkdownCellBelowID →
        hiddenFitCount (a :: rest) s w = hiddenFitCount rest s w + 1) ∧
    (∀ (tb : ToolbarState) (actions : List IActionModel) (w : Int) (a : IActionModel),
      a ∈ (calcuateWithAlllabelsHidden tb actions w).1.primaryActions →
        a.action.id = insertMarkdownCellBelowID → a.visible = false) ∧
    (∀ (tb : ToolbarState) (actions : List IActionModel) (w : Int) (x : IAction),
      x ∈ (calcuateWithAlllabelsHidden tb actions w).2.primaryActions →
        x.id ≠ insertMarkdownCellBelowID) := by
  refine ⟨?_, ?_, ?_⟩
  · intro a rest s w h
    simp [hiddenFitCount, h]
  · intro tb actions w a ha hid
    simp only [calcuateWithAlllabelsHidden] at ha
    rcases List.mem_append.1 ha with h | h
    · obtain ⟨b, hb, rfl⟩ := List.mem_map.1 h
      have hb' : b.action.id = insertMarkdownCellBelowID := hid
      show (b.action.id != insertMarkdownCellBelowID) = false
      simp [hb']
    · obtain ⟨b, hb, rfl⟩ := List.mem_map.1 h
      rfl
  · intro tb actions w x hx hxm
    simp only [calcuateWithAlllabelsHidden] at hx
    obtain ⟨b, hb, rfl⟩ := List.mem_map.1 hx
    have hbmem := (List.mem_filter.1 hb).1
    have hbf := (List.mem_filter.1 hb).2
    rw [Bool.and_eq_true] at hbf
    obtain ⟨c, hc, rfl⟩ := List.mem_map.1 hbmem
    have hvi : (c.action.id != insertMarkdownCellBelowID) = true := hbf.1
    have hcm : c.action.id = insertMarkdownCellBelowID := hxm
    rw [hcm] at hvi
    simp at hvi

theorem C4_markdown_quirk_witness :
    hiddenFitCount [mkModel insertMarkdownCellBelowID 50] 0 0 = hiddenFitCount [] 0 0 + 1 ∧
    ({ action := { id := insertMarkdownCellBelowID }, size := 50, visible := false,
       renderLabel := false } : IActionModel).visible = false ∧
    ({ id := "w4.plain" } : IAction).id ≠ insertMarkdownCellBelowID :=
  ⟨C4_markdown_quirk.1 (mkModel insertMarkdownCellBelowID 50) [] 0 0 rfl,
   C4_markdown_quirk.2.1 tbW4 tbW4.primaryActions 0
     { action := { id := insertMarkdownCellBelowID }, size := 50, visible := false,
       renderLabel := false } (by decide) rfl,
   C4_markdown_quirk.2.2 tbW4b tbW4b.primaryActions 100 { id := "w4.plain" } (by decide)⟩

/-- C1: for every toolbar state whose candidate prefix (the primary list
minus a trailing toggle-more sentinel) is non-empty, contains no action with
the sentinel id, and whose total labeled width (sizes plus `ACTION_PADDING`
between consecutive actions) fits in the budget, the dynamic strategy marks
every cached model visible with its label, returns exactly the candidate
actions as `primaryActions`, and returns the pre-existing secondary list
unchanged. -/
theorem C1_dynamic_all_labels_fit (tb : ToolbarState) (w : Int)
    (hne : toolbarCandidates tb.primaryActions ≠ [])
    (hfit : totalWidthWithLabels (toolbarCandidates tb.primaryActions) ≤ w)
    (hnotog : ∀ a ∈ toolbarCandidates tb.primaryActions, a.action.id ≠ ToggleMenuAction.ID) :
    ∃ tb' r, dynCalculateActions tb w = some (tb', r) ∧
      (∀ a ∈ tb'.primaryActions, a.visible = true ∧ a.renderLabel = true) ∧
      r.primaryActions = (toolbarCandidates tb.primaryActions).map (·.action) ∧
      r.secondaryActions = tb.secondaryActions := by
  have hP : tb.primaryActions ≠ [] := by
    intro h
    apply hne
    simp [toolbarCandidates, h]
  have hlen : ¬ (toolbarCandidates tb.primaryActions).length = 0 := by
    simpa [List.length_eq_zero] using hne
  refine ⟨(dynAllFitBranch tb).1, (dynAllFitBranch tb).2, ?_, ?_, ?_, ?_⟩
  · rw [dynCalculateActions_of_ne tb w hP, if_neg hlen, if_pos hfit]
  · intro a ha
    simp only [dynAllFitBranch] at ha
    obtain ⟨b, _, rfl⟩ := List.mem_map.1 ha
    exact ⟨rfl, rfl⟩
  · simp only [dynAllFitBranch]
    rw [filter_map_override (fun a => { a with visible := true, renderLabel := true })
        (fun a => a.visible && a.action.id != ToggleMenuAction.ID)
        (fun a => a.action.id != ToggleMenuAction.ID) (fun a => by simp) (fun a => rfl)]
    rw [filter_eq_filter_candidates tb.primaryActions hP _ (fun a h => by simp [h])]
    rw [List.filter_eq_self.2 (fun a ha => by simpa [bne_iff_ne] using hnotog a ha)]
  · rfl

theorem C1_witness :
    ∃ tb' r, dynCalculateActions tbW1 100 = some (tb', r) ∧
      (∀ a ∈ tb'.primaryActions, a.visible = true ∧ a.renderLabel = true) ∧
      r.primaryActions = (toolbarCandidates tbW1.primaryActions).map (·.action) ∧
      r.secondaryActions = tbW1.secondaryActions :=
  C1_dynamic_all_labels_fit tbW1 100 (by decide) (by decide) (by decide)

/-- C2: whenever the toggle-more sentinel is the last primary action and the
pre-existing secondary list does not mention its id, the sentinel id appears
in neither the primary nor the secondary output of any of the three
strategies, at any width. -/
theorem C2_sentinel_never_output (tb : ToolbarState) (w : Int)
    (hlast : hasToggleMoreAction tb.primaryActions = true)
    (hsec : ∀ b ∈ tb.secondaryActions, b.id ≠ ToggleMenuAction.ID) :
    optSentinelFree (FixedLabelStrategy.calculateActions tb w) ∧
    optSentinelFree (FixedLabellessStrategy.calculateActions tb w) ∧
    optSentinelFree (dynCalculateActions tb w) := by
  have hP := ne_nil_of_hasToggle hlast
  have hfixed : optSentinelFree (calculateFixedActions tb w) := by
    rw [calculateFixedActions_of_ne tb w hP]
    show sentinelFree (fixedApply tb _).2
    simp only [fixedApply]
    exact sentinelFree_mk _ _ _ _ _ hsec
  refine ⟨hfixed, hfixed, ?_⟩
  rw [dynCalculateActions_of_ne tb w hP]
  by_cases h0 : (toolbarCandidates tb.primaryActions).length = 0
  · rw [if_pos h0]
    show sentinelFree (dynEmptyBranch tb).2
    simp only [dynEmptyBranch]
    exact sentinelFree_mk' _ _ _ hsec
  · rw [if_neg h0]
    by_cases h1 : totalWidthWithLabels (toolbarCandidates tb.primaryActions) ≤ w
    · rw [if_pos h1]
      show sentinelFree (dynAllFitBranch tb).2
      simp only [dynAllFitBranch]
      exact sentinelFree_mk' _ _ _ hsec
    · rw [if_neg h1]
      have hhid : ∀ acts, sentinelFree (calcuateWithAlllabelsHidden tb acts w).2 := by
        intro acts
        simp only [calcuateWithAlllabelsHidden]
        exact sentinelFree_mk _ _ _ _ _ hsec
      by_cases h2 : ((toolbarCandidates tb.primaryActions).length : Int) * ICON_ONLY_ACTION_WIDTH
          + (((toolbarCandidates tb.primaryActions).length : Int) - 1) * ACTION_PADDING > w
      · rw [if_pos h2]
        exact hhid _
      · rw [if_neg h2]
        by_cases h3 : breakpointSearch (toolbarCandidates tb.primaryActions) w < 0
        · rw [if_pos h3]
          exact hhid _
        · rw [if_neg h3]
          show sentinelFree (dynBreakpointBranch tb _).2
          simp only [dynBreakpointBranch]
          exact sentinelFree_mk' _ _ _ hsec

theorem C2_witness :
    optSentinelFree (FixedLabelStrategy.calculateActions tbW2 10) ∧
    optSentinelFree (FixedLabellessStrategy.calculateActions tbW2 10) ∧
    optSentinelFree (dynCalculateActions tbW2 10) :=
  C2_sentinel_never_output tbW2 10 (by decide) (by decide)

/-- C5: (1) the `_computeSizes` guard returns early on an empty cached action
list without consulting any strategy; (2) on a non-empty list no strategy
reaches the modelled `TypeError` branch (the computation always produces a
result); (3) with a zero or negative budget, a non-empty candidate list and
positive measured sizes, the dynamic strategy tolerates the degenerate space
by falling through to the full-degrade path (`_calcuateWithAlllabelsHidden`)
instead of erroring. -/
theorem C5_degenerate_inputs :
    (∀ (strat : ToolbarState → Int → Option (ToolbarState × CalcResult))
       (tb : ToolbarState) (w : Int),
       tb.primaryActions = [] → computeSizesGuard strat tb w = none) ∧
    (∀ (tb : ToolbarState) (w : Int), tb.primaryActions ≠ [] →
       (calculateFixedActions tb w).isSome
         ∧ (FixedLabellessStrategy.calculateActions tb w).isSome
         ∧ (dynCalculateActions tb w).isSome) ∧
    (∀ (tb : ToolbarState) (w : Int), w ≤ 0 →
       toolbarCandidates tb.primaryActions ≠ [] →
       (∀ a ∈ tb.primaryActions, 1 ≤ a.size) →
       dynCalculateActions tb w
         = some (calcuateWithAlllabelsHidden tb (toolbarCandidates tb.primaryActions) w)) := by
  refine ⟨?_, ?_, ?_⟩
  · intro strat tb w h
    unfold computeSizesGuard
    rw [if_pos (by simp [h])]
  · intro tb w h
    have h1 : (calculateFixedActions tb w).isSome := by
      rw [calculateFixedActions_of_ne tb w h]
      rfl
    refine ⟨h1, h1, ?_⟩
    rw [dynCalculateActions_of_ne tb w h]
    split_ifs <;> rfl
  · intro tb w hw hne hsz
    have hP : tb.primaryActions ≠ [] := by
      intro h
      apply hne
      simp [toolbarCandidates, h]
    have h0 : ¬ (toolbarCandidates tb.primaryActions).length = 0 := by
      simpa [List.length_eq_zero] using hne
    have hn1 : 1 ≤ (toolbarCandidates tb.primaryActions).length := Nat.one_le_iff_ne_zero.2 h0
    have hcast : (1 : Int) ≤ ((toolbarCandidates tb.primaryActions).length : Int) := by
      exact_mod_cast hn1
    have hsum : (0 : Int) + ((toolbarCandidates tb.primaryActions).map (·.size)).length
        ≤ ((toolbarCandidates tb.primaryActions).map (·.size)).foldl (· + ·) 0 := by
      apply foldl_add_le
      intro x hx
      obtain ⟨a, ha, rfl⟩ := List.mem_map.1 hx
      exact hsz a (List.take_subset _ _ ha)
    simp only [List.length_map] at hsum
    have hA : ACTION_PADDING = 8 := rfl
    have hI : ICON_ONLY_ACTION_WIDTH = 21 := rfl
    have hpad : (0 : Int)
        ≤ (((toolbarCandidates tb.primaryActions).length : Int) - 1) * ACTION_PADDING := by
      rw [hA]
      apply mul_nonneg (by linarith) (by norm_num)
    have htot : ¬ totalWidthWithLabels (toolbarCandidates tb.primaryActions) ≤ w := by
      unfold totalWidthWithLabels
      intro hle
      linarith
    have hicon : ((toolbarCandidates tb.primaryActions).length : Int) * ICON_ONLY_ACTION_WIDTH
        + (((toolbarCandidates tb.primaryActions).length : Int) - 1) * ACTION_PADDING > w := by
      rw [hI]
      have h21 : (1 : Int) * 21 ≤ ((toolbarCandidates tb.primaryActions).length : Int) * 21 :=
        mul_le_mul_of_nonneg_right hcast (by norm_num)
      linarith
    rw [dynCalculateActions_of_ne tb w hP, if_neg h0, if_neg htot, if_pos hicon]

theorem C5_witness :
    computeSizesGuard dynCalculateActions tbW5empty 5 = none ∧
    ((calculateFixedActions tbW5 5).isSome
      ∧ (FixedLabellessStrategy.calculateActions tbW5 5).isSome
      ∧ (dynCalculateActions tbW5 5).isSome) ∧
    dynCalculateActions tbW5 0
      = some (calcuateWithAlllabelsHidden tbW5 (toolbarCandidates tbW5.primaryActions) 0) :=
  ⟨C5_degenerate_inputs.1 dynCalculateActions tbW5empty 5 rfl,
   C5_degenerate_inputs.2.1 tbW5 5 (by decide),
   C5_degenerate_inputs.2.2 tbW5 0 (le_refl 0) (by decide) (by decide)⟩

/-! ### Monotonicity and counting lemmas for the layout walks -/

theorem fixedFitCount_mono (w1 w2 : Int) (hw : w2 ≤ w1) :
    ∀ (l : List IActionModel) (s : Int), fixedFitCount l s w2 ≤ fixedFitCount l s w1 := by
  intro l
  induction l with
  | nil => intro s; exact le_refl _
  | cons a l ih =>
    intro s
    by_cases h : s + a.size ≤ w2
    · simp only [fixedFitCount]
      rw [if_pos h, if_pos (le_trans h hw)]
      exact Nat.succ_le_succ (ih _)
    · simp only [fixedFitCount]
      rw [if_neg h]
      exact Nat.zero_le _

theorem hiddenFitCount_mono (w1 w2 : Int) (hw : w2 ≤ w1) :
    ∀ (l : List IActionModel) (s : Int), hiddenFitCount l s w2 ≤ hiddenFitCount l s w1 := by
  intro l
  induction l with
  | nil => intro s; exact le_refl _
  | cons a l ih =>
    intro s
    by_cases hmd : (a.action.id == insertMarkdownCellBelowID) = true
    · simp only [hiddenFitCount]
      rw [if_pos hmd, if_pos hmd]
      exact Nat.succ_le_succ (ih _)
    · by_cases h : s + ICON_ONLY_ACTION_WIDTH ≤ w2
      · simp only [hiddenFitCount]
        rw [if_neg hmd, if_neg hmd, if_pos h, if_pos (le_trans h hw)]
        exact Nat.succ_le_succ (ih _)
      · simp only [hiddenFitCount]
        rw [if_neg hmd, if_neg h]
        exact Nat.zero_le _

theorem breakpointGo_mono (w1 w2 : Int) (hw : w2 ≤ w1) :
    ∀ (l : List IActionModel) (s i acc1 acc2 : Int), acc2 ≤ acc1 → acc1 < i →
      breakpointGo w2 l s i acc2 ≤ breakpointGo w1 l s i acc1 := by
  intro l
  induction l with
  | nil =>
    intro s i acc1 acc2 h1 _
    simpa [breakpointGo] using h1
  | cons a l ih =>
    intro s i acc1 acc2 h1 h2
    simp only [breakpointGo]
    by_cases hsep : a.action.isSeparator = true
    · rw [if_pos hsep, if_pos hsep]
      split_ifs <;> apply ih <;> linarith
    · rw [if_neg hsep, if_neg hsep]
      exact ih _ _ _ _ h1 (by linarith)

theorem breakpointSearch_mono (actions : List IActionModel) (w1 w2 : Int) (hw : w2 ≤ w1) :
    breakpointSearch actions w2 ≤ breakpointSearch actions w1 :=
  breakpointGo_mono w1 w2 hw actions 0 0 (-1) (-1) (le_refl _) (by norm_num)

/-- Length form of `filter_map_override`. -/
theorem length_filter_override (f : IActionModel → IActionModel) (Q Q' : IActionModel → Bool)
    (hQ : ∀ a, Q (f a) = Q' a) (hact : ∀ a, (f a).action = a.action)
    (P : List IActionModel) : ((P.map f).filter Q).length = (P.filter Q').length := by
  have h := congrArg List.length (filter_map_override f Q Q' hQ hact P)
  simpa [List.length_map] using h

theorem fixedApply_count (tb : ToolbarState) (k : Nat) :
    (fixedApply tb k).2.primaryActions.length
      = ((tb.primaryActions.take k).filter
          (fun a => a.action.id != ToggleMenuAction.ID)).length := by
  simp only [fixedApply, List.length_map]
  exact length_filter_override (fun a => { a with visible := true }) _ _
    (fun a => rfl) (fun a => rfl) _

theorem dynAllFitBranch_count (tb : ToolbarState) :
    (dynAllFitBranch tb).2.primaryActions.length
      = (tb.primaryActions.filter (fun a => a.action.id != ToggleMenuAction.ID)).length := by
  simp only [dynAllFitBranch, List.length_map]
  exact length_filter_override (fun a => { a with visible := true, renderLabel := true }) _ _
    (fun a => rfl) (fun a => rfl) _

theorem dynBreakpointBranch_count (tb : ToolbarState) (m : Nat) :
    (dynBreakpointBranch tb m).2.primaryActions.length
      = (tb.primaryActions.filter (fun a => a.action.id != ToggleMenuAction.ID)).length := by
  simp only [dynBreakpointBranch, List.length_map]
  rw [List.filter_append, List.length_append]
  rw [length_filter_override (fun a => { a with visible := true, renderLabel := true })
      (fun a => a.visible && a.action.id != ToggleMenuAction.ID)
      (fun a => a.action.id != ToggleMenuAction.ID) (fun a => rfl) (fun a => rfl) _]
  rw [length_filter_override (fun a => { a with visible := true, renderLabel := false })
      (fun a => a.visible && a.action.id != ToggleMenuAction.ID)
      (fun a => a.action.id != ToggleMenuAction.ID) (fun a => rfl) (fun a => rfl) _]
  rw [← List.length_append, ← List.filter_append, List.take_append_drop]

theorem hidden_count (tb : ToolbarState) (actions : List IActionModel) (w : Int) :
    (calcuateWithAlllabelsHidden tb actions w).2.primaryActions.length
      = ((tb.primaryActions.take (hiddenFitCount actions 0 w)).filter
          (fun a => a.action.id != insertMarkdownCellBelowID
            && a.action.id != ToggleMenuAction.ID)).length := by
  simp only [calcuateWithAlllabelsHidden, List.length_map]
  exact length_filter_override
    (fun a => { a with renderLabel := false,
                       visible := a.action.id != insertMarkdownCellBelowID }) _ _
    (fun a => rfl) (fun a => rfl) _

theorem hidden_count_le_N (P : List IActionModel) (k : Nat) :
    ((P.take k).filter (fun a => a.action.id != insertMarkdownCellBelowID
        && a.action.id != ToggleMenuAction.ID)).length
      ≤ (P.filter (fun a => a.action.id != ToggleMenuAction.ID)).length := by
  calc ((P.take k).filter (fun a => a.action.id != insertMarkdownCellBelowID
          && a.action.id != ToggleMenuAction.ID)).length
      ≤ (P.filter (fun a => a.action.id != insertMarkdownCellBelowID
          && a.action.id != ToggleMenuAction.ID)).length := length_filter_take_le _ P k
    _ ≤ (P.filter (fun a => a.action.id != ToggleMenuAction.ID)).length :=
        length_filter_le_of_imp _ _
          (fun a h => by rw [Bool.and_eq_true] at h; exact h.2) P

/-- The dynamic strategy never returns more primary actions than the number of
non-sentinel cached actions. -/
theorem dyn_count_le (tb : ToolbarState) (w : Int) :
    primCount (dynCalculateActions tb w)
      ≤ (tb.primaryActions.filter (fun a => a.action.id != ToggleMenuAction.ID)).length := by
  by_cases hP : tb.primaryActions = []
  · rw [dynCalculateActions_of_nil _ _ hP]
    exact Nat.zero_le _
  · rw [dynCalculateActions_of_ne _ _ hP]
    split_ifs with h0 h1 h2 h3
    · simp only [primCount, dynEmptyBranch, List.length_map]
      exact length_filter_le_of_imp _ _
        (fun a h => by rw [Bool.and_eq_true] at h; exact h.2) _
    · simp only [primCount]
      rw [dynAllFitBranch_count]
    · simp only [primCount]
      rw [hidden_count]
      exact hidden_count_le_N _ _
    · simp only [primCount]
      rw [hidden_count]
      exact hidden_count_le_N _ _
    · simp only [primCount]
      rw [dynBreakpointBranch_count]

/-- C6: for a fixed toolbar state, the number of primary actions returned by
`calculateActions` is a monotonically non-increasing function of the
available width as that width decreases, for each of the three strategies. -/
theorem C6_primary_count_monotone (tb : ToolbarState) (w1 w2 : Int) (hw : w2 ≤ w1) :
    primCount (FixedLabelStrategy.calculateActions tb w2)
        ≤ primCount (FixedLabelStrategy.calculateActions tb w1) ∧
    primCount (FixedLabellessStrategy.calculateActions tb w2)
        ≤ primCount (FixedLabellessStrategy.calculateActions tb w1) ∧
    primCount (dynCalculateActions tb w2) ≤ primCount (dynCalculateActions tb w1) := by
  by_cases hP : tb.primaryActions = []
  · refine ⟨?_, ?_, ?_⟩ <;>
      simp [FixedLabelStrategy.calculateActions, FixedLabellessStrategy.calculateActions,
        calculateFixedActions_of_nil _ _ hP, dynCalculateActions_of_nil _ _ hP, primCount]
  · have hfix : primCount (calculateFixedActions tb w2)
        ≤ primCount (calculateFixedActions tb w1) := by
      rw [calculateFixedActions_of_ne _ _ hP, calculateFixedActions_of_ne _ _ hP]
      simp only [primCount]
      rw [fixedApply_count, fixedApply_count]
      exact length_filter_take_mono _ _ (fixedFitCount_mono w1 w2 hw _ 0)
    refine ⟨hfix, hfix, ?_⟩
    by_cases h0 : (toolbarCandidates tb.primaryActions).length = 0
    · rw [dynCalculateActions_of_ne tb w2 hP, dynCalculateActions_of_ne tb w1 hP,
        if_pos h0, if_pos h0]
    · by_cases hfit2 : totalWidthWithLabels (toolbarCandidates tb.primaryActions) ≤ w2
      · have hfit1 := le_trans hfit2 hw
        rw [dynCalculateActions_of_ne tb w2 hP, dynCalculateActions_of_ne tb w1 hP,
          if_neg h0, if_neg h0, if_pos hfit2, if_pos hfit1]
      · by_cases hfit1 : totalWidthWithLabels (toolbarCandidates tb.primaryActions) ≤ w1
        · have h1N : primCount (dynCalculateActions tb w1)
              = (tb.primaryActions.filter
                  (fun a => a.action.id != ToggleMenuAction.ID)).length := by
            rw [dynCalculateActions_of_ne _ _ hP, if_neg h0, if_pos hfit1]
            simp only [primCount]
            exact dynAllFitBranch_count tb
          rw [h1N]
          exact dyn_count_le tb w2
        · rw [dynCalculateActions_of_ne tb w2 hP, dynCalculateActions_of_ne tb w1 hP,
            if_neg h0, if_neg h0, if_neg hfit2, if_neg hfit1]
          by_cases hic2 : ((toolbarCandidates tb.primaryActions).length : Int)
              * ICON_ONLY_ACTION_WIDTH
              + (((toolbarCandidates tb.primaryActions).length : Int) - 1) * ACTION_PADDING
              > w2
          · rw [if_pos hic2]
            by_cases hic1 : ((toolbarCandidates tb.primaryActions).length : Int)
                * ICON_ONLY_ACTION_WIDTH
                + (((toolbarCandidates tb.primaryActions).length : Int) - 1) * ACTION_PADDING
                > w1
            · rw [if_pos hic1]
              simp only [primCount]
              rw [hidden_count, hidden_count]
              exact length_filter_take_mono _ _ (hiddenFitCount_mono w1 w2 hw _ 0)
            · rw [if_neg hic1]
              by_cases hs1 : breakpointSearch (toolbarCandidates tb.primaryActions) w1 < 0
              · rw [if_pos hs1]
                simp only [primCount]
                rw [hidden_count, hidden_count]
                exact length_filter_take_mono _ _ (hiddenFitCount_mono w1 w2 hw _ 0)
              · rw [if_neg hs1]
                simp only [primCount]
                rw [hidden_count, dynBreakpointBranch_count]
                exact hidden_count_le_N _ _
          · have hic1 : ¬ (((toolbarCandidates tb.primaryActions).length : Int)
                * ICON_ONLY_ACTION_WIDTH
                + (((toolbarCandidates tb.primaryActions).length : Int) - 1) * ACTION_PADDING
                > w1) := fun h => hic2 (lt_of_le_of_lt hw h)
            rw [if_neg hic2, if_neg hic1]
            by_cases hs2 : breakpointSearch (toolbarCandidates tb.primaryActions) w2 < 0
            · rw [if_pos hs2]
              by_cases hs1 : breakpointSearch (toolbarCandidates tb.primaryActions) w1 < 0
              · rw [if_pos hs1]
                simp only [primCount]
                rw [hidden_count, hidden_count]
                exact length_filter_take_mono _ _ (hiddenFitCount_mono w1 w2 hw _ 0)
              · rw [if_neg hs1]
                simp only [primCount]
                rw [hidden_count, dynBreakpointBranch_count]
                exact hidden_count_le_N _ _
            · have hs1 : ¬ breakpointSearch (toolbarCandidates tb.primaryActions) w1 < 0 :=
                fun h =>
                  hs2 (lt_of_le_of_lt (breakpointSearch_mono _ w1 w2 hw) h)
              rw [if_neg hs2, if_neg hs1]
              simp only [primCount]
              rw [dynBreakpointBranch_count, dynBreakpointBranch_count]

theorem C6_witness :
    primCount (FixedLabelStrategy.calculateActions tbW6 50)
        ≤ primCount (FixedLabelStrategy.calculateActions tbW6 100) ∧
    primCount (FixedLabellessStrategy.calculateActions tbW6 50)
        ≤ primCount (FixedLabellessStrategy.calculateActions tbW6 100) ∧
    primCount (dynCalculateActions tbW6 50) ≤ primCount (dynCalculateActions tbW6 100) :=
  C6_primary_count_monotone tbW6 100 50 (by norm_num)

/-! ### Congruence lemmas: the strategies only read the `action` and `size`
fields of the cached models (outside the dynamic empty branch), so any rewrite
of the `visible`/`renderLabel` flags leaves a recomputation unchanged. -/

theorem map_congr_of_key {β : Type} (f : IActionModel → β)
    (hf : ∀ a b, a.action = b.action → a.size = b.size → f a = f b) :
    ∀ l₁ l₂ : List IActionModel, l₁.map modelKey = l₂.map modelKey →
      l₁.map f = l₂.map f := by
  intro l₁
  induction l₁ with
  | nil =>
    intro l₂ h
    cases l₂ with
    | nil => rfl
    | cons b l₂ => simp at h
  | cons a l₁ ih =>
    intro l₂ h
    cases l₂ with
    | nil => simp at h
    | cons b l₂ =>
      simp only [List.map_cons, List.cons.injEq] at h ⊢
      obtain ⟨hab, htl⟩ := h
      exact ⟨hf a b (congrArg Prod.fst hab) (congrArg Prod.snd hab), ih l₂ htl⟩

theorem length_eq_of_key (l₁ l₂ : List IActionModel)
    (h : l₁.map modelKey = l₂.map modelKey) : l₁.length = l₂.length := by
  have h2 := congrArg List.length h
  simpa [List.length_map] using h2

theorem hasToggle_congr (l₁ l₂ : List IActionModel)
    (hk : l₁.map modelKey = l₂.map modelKey) :
    hasToggleMoreAction l₁ = hasToggleMoreAction l₂ := by
  have h := congrArg List.getLast? hk
  rw [List.getLast?_map, List.getLast?_map] at h
  unfold hasToggleMoreAction
  cases h1 : l₁.getLast? with
  | none =>
    cases h2 : l₂.getLast? with
    | none => rfl
    | some b => rw [h1, h2] at h; simp at h
  | some a =>
    cases h2 : l₂.getLast? with
    | none => rw [h1, h2] at h; simp at h
    | some b =>
      rw [h1, h2] at h
      simp only [Option.map_some'] at h
      have hid : a.action.id = b.action.id :=
        congrArg IAction.id (congrArg Prod.fst (Option.some.inj h))
      show (a.action.id == ToggleMenuAction.ID) = (b.action.id == ToggleMenuAction.ID)
      rw [hid]

theorem candidates_key_congr (l₁ l₂ : List IActionModel)
    (hk : l₁.map modelKey = l₂.map modelKey) :
    (toolbarCandidates l₁).map modelKey = (toolbarCandidates l₂).map modelKey := by
  unfold toolbarCandidates
  rw [List.map_take, List.map_take, hk, length_eq_of_key l₁ l₂ hk, hasToggle_congr l₁ l₂ hk]

theorem fixedFitCount_congr :
    ∀ l₁ l₂ : List IActionModel, l₁.map modelKey = l₂.map modelKey →
      ∀ s w : Int, fixedFitCount l₁ s w = fixedFitCount l₂ s w := by
  intro l₁
  induction l₁ with
  | nil =>
    intro l₂ h s w
    cases l₂ with
    | nil => rfl
    | cons b l₂ => simp at h
  | cons a l₁ ih =>
    intro l₂ h s w
    cases l₂ with
    | nil => simp at h
    | cons b l₂ =>
      simp only [List.map_cons, List.cons.injEq] at h
      obtain ⟨hab, htl⟩ := h
      have hsz : a.size = b.size := congrArg Prod.snd hab
      simp only [fixedFitCount, hsz]
      by_cases hc : s + b.size ≤ w
      · rw [if_pos hc, if_pos hc, ih l₂ htl]
      · rw [if_neg hc, if_neg hc]

theorem hiddenFitCount_congr :
    ∀ l₁ l₂ : List IActionModel, l₁.map modelKey = l₂.map modelKey →
      ∀ s w : Int, hiddenFitCount l₁ s w = hiddenFitCount l₂ s w := by
  intro l₁
  induction l₁ with
  | nil =>
    intro l₂ h s w
    cases l₂ with
    | nil => rfl
    | cons b l₂ => simp at h
  | cons a l₁ ih =>
    intro l₂ h s w
    cases l₂ with
    | nil => simp at h
    | cons b l₂ =>
      simp only [List.map_cons, List.cons.injEq] at h
      obtain ⟨hab, htl⟩ := h
      have hid : a.action.id = b.action.id :=
        congrArg IAction.id (congrArg Prod.fst hab)
      simp only [hiddenFitCount, hid]
      by_cases hmd : (b.action.id == insertMarkdownCellBelowID) = true
      · rw [if_pos hmd, if_pos hmd, ih l₂ htl]
      · by_cases hc : s + ICON_ONLY_ACTION_WIDTH ≤ w
        · rw [if_neg hmd, if_neg hmd, if_pos hc, if_pos hc, ih l₂ htl]
        · rw [if_neg hmd, if_neg hmd, if_neg hc, if_neg hc]

theorem breakpointGo_congr (w : Int) :
    ∀ l₁ l₂ : List IActionModel, l₁.map modelKey = l₂.map modelKey →
      ∀ s i acc : Int, breakpointGo w l₁ s i acc = breakpointGo w l₂ s i acc := by
  intro l₁
  induction l₁ with
  | nil =>
    intro l₂ h s i acc
    cases l₂ with
    | nil => rfl
    | cons b l₂ => simp at h
  | cons a l₁ ih =>
    intro l₂ h s i acc
    cases l₂ with
    | nil => simp at h
    | cons b l₂ =>
      simp only [List.map_cons, List.cons.injEq] at h
      obtain ⟨hab, htl⟩ := h
      have hact : a.action = b.action := congrArg Prod.fst hab
      have hsz : a.size = b.size := congrArg Prod.snd hab
      have hsep : a.action.isSeparator = b.action.isSeparator := by rw [hact]
      have hlen : l₁.length = l₂.length := length_eq_of_key l₁ l₂ htl
      simp only [breakpointGo, hsz, hsep, hlen]
      exact ih l₂ htl _ _ _

theorem totalWidth_congr (l₁ l₂ : List IActionModel)
    (hk : l₁.map modelKey = l₂.map modelKey) :
    totalWidthWithLabels l₁ = totalWidthWithLabels l₂ := by
  unfold totalWidthWithLabels
  rw [map_congr_of_key (·.size) (fun a b _ h2 => h2) l₁ l₂ hk, length_eq_of_key l₁ l₂ hk]

theorem filter_action_map_congr (Q : IActionModel → Bool)
    (hQ : ∀ a b, a.action = b.action → Q a = Q b) :
    ∀ l₁ l₂ : List IActionModel, l₁.map modelKey = l₂.map modelKey →
      (l₁.filter Q).map (·.action) = (l₂.filter Q).map (·.action) := by
  intro l₁
  induction l₁ with
  | nil =>
    intro l₂ h
    cases l₂ with
    | nil => rfl
    | cons b l₂ => simp at h
  | cons a l₁ ih =>
    intro l₂ h
    cases l₂ with
    | nil => simp at h
    | cons b l₂ =>
      simp only [List.map_cons, List.cons.injEq] at h
      obtain ⟨hab, htl⟩ := h
      have hact : a.action = b.action := congrArg Prod.fst hab
      simp only [List.filter_cons, hQ a b hact]
      by_cases hq : Q b = true
      · rw [if_pos hq, if_pos hq]
        simp only [List.map_cons, hact, ih l₂ htl]
      · rw [if_neg hq, if_neg hq]
        exact ih l₂ htl

/-! ### The mutations performed by the strategies never change an action
descriptor or a measured size. -/

theorem fixedApply_fst_key (tb : ToolbarState) (k : Nat) :
    (fixedApply tb k).1.primaryActions.map modelKey = tb.primaryActions.map modelKey := by
  simp only [fixedApply]
  rw [List.map_append, List.map_map, List.map_map]
  show (tb.primaryActions.take k).map modelKey ++ (tb.primaryActions.drop k).map modelKey
      = tb.primaryActions.map modelKey
  rw [← List.map_append, List.take_append_drop]

theorem dynAllFitBranch_fst_key (tb : ToolbarState) :
    (dynAllFitBranch tb).1.primaryActions.map modelKey = tb.primaryActions.map modelKey := by
  simp only [dynAllFitBranch]
  rw [List.map_map]
  rfl

theorem dynBreakpointBranch_fst_key (tb : ToolbarState) (m : Nat) :
    (dynBreakpointBranch tb m).1.primaryActions.map modelKey
      = tb.primaryActions.map modelKey := by
  simp only [dynBreakpointBranch]
  rw [List.map_append, List.map_map, List.map_map]
  show (tb.primaryActions.take m).map modelKey ++ (tb.primaryActions.drop m).map modelKey
      = tb.primaryActions.map modelKey
  rw [← List.map_append, List.take_append_drop]

theorem hidden_fst_key (tb : ToolbarState) (actions : List IActionModel) (w : Int) :
    (calcuateWithAlllabelsHidden tb actions w).1.primaryActions.map modelKey
      = tb.primaryActions.map modelKey := by
  simp only [calcuateWithAlllabelsHidden]
  rw [List.map_append, List.map_map, List.map_map]
  show (tb.primaryActions.take (hiddenFitCount actions 0 w)).map modelKey
        ++ (tb.primaryActions.drop (hiddenFitCount actions 0 w)).map modelKey
      = tb.primaryActions.map modelKey
  rw [← List.map_append, List.take_append_drop]

/-! ### Full congruence of each branch under flag-only rewrites -/

theorem dynAllFitBranch_congr (tb₁ tb₂ : ToolbarState)
    (hk : tb₁.primaryActions.map modelKey = tb₂.primaryActions.map modelKey)
    (hs : tb₁.secondaryActions = tb₂.secondaryActions) :
    dynAllFitBranch tb₁ = dynAllFitBranch tb₂ := by
  have hnew : tb₁.primaryActions.map (fun a => { a with visible := true, renderLabel := true })
      = tb₂.primaryActions.map (fun a => { a with visible := true, renderLabel := true }) := by
    apply map_congr_of_key _ ?_ _ _ hk
    intro a b h1 h2
    show IActionModel.mk a.action a.size true true = IActionModel.mk b.action b.size true true
    rw [h1, h2]
  simp only [dynAllFitBranch, hnew, hs]

theorem dynBreakpointBranch_congr (tb₁ tb₂ : ToolbarState) (m : Nat)
    (hk : tb₁.primaryActions.map modelKey = tb₂.primaryActions.map modelKey)
    (hs : tb₁.secondaryActions = tb₂.secondaryActions) :
    dynBreakpointBranch tb₁ m = dynBreakpointBranch tb₂ m := by
  have htk : (tb₁.primaryActions.take m).map modelKey
      = (tb₂.primaryActions.take m).map modelKey := by
    rw [List.map_take, List.map_take, hk]
  have hdk : (tb₁.primaryActions.drop m).map modelKey
      = (tb₂.primaryActions.drop m).map modelKey := by
    rw [List.map_drop, List.map_drop, hk]
  have h1 : (tb₁.primaryActions.take m).map
        (fun a => { a with visible := true, renderLabel := true })
      = (tb₂.primaryActions.take m).map
        (fun a => { a with visible := true, renderLabel := true }) := by
    apply map_congr_of_key _ ?_ _ _ htk
    intro a b ha hb
    show IActionModel.mk a.action a.size true true = IActionModel.mk b.action b.size true true
    rw [ha, hb]
  have h2 : (tb₁.primaryActions.drop m).map
        (fun a => { a with visible := true, renderLabel := false })
      = (tb₂.primaryActions.drop m).map
        (fun a => { a with visible := true, renderLabel := false }) := by
    apply map_congr_of_key _ ?_ _ _ hdk
    intro a b ha hb
    show IActionModel.mk a.action a.size true false = IActionModel.mk b.action b.size true false
    rw [ha, hb]
  simp only [dynBreakpointBranch, h1, h2, hs]

theorem calcuateWithAlllabelsHidden_congr (tb₁ tb₂ : ToolbarState)
    (A₁ A₂ : List IActionModel) (w : Int)
    (hk : tb₁.primaryActions.map modelKey = tb₂.primaryActions.map modelKey)
    (hkA : A₁.map modelKey = A₂.map modelKey)
    (hs : tb₁.secondaryActions = tb₂.secondaryActions) :
    calcuateWithAlllabelsHidden tb₁ A₁ w = calcuateWithAlllabelsHidden tb₂ A₂ w := by
  have hkc : hiddenFitCount A₁ 0 w = hiddenFitCount A₂ 0 w :=
    hiddenFitCount_congr A₁ A₂ hkA 0 w
  have hlenA : A₁.length = A₂.length := length_eq_of_key _ _ hkA
  have htk : (tb₁.primaryActions.take (hiddenFitCount A₂ 0 w)).map modelKey
      = (tb₂.primaryActions.take (hiddenFitCount A₂ 0 w)).map modelKey := by
    rw [List.map_take, List.map_take, hk]
  have hdk : (tb₁.primaryActions.drop (hiddenFitCount A₂ 0 w)).map modelKey
      = (tb₂.primaryActions.drop (hiddenFitCount A₂ 0 w)).map modelKey := by
    rw [List.map_drop, List.map_drop, hk]
  have h1 : (tb₁.primaryActions.take (hiddenFitCount A₂ 0 w)).map
        (fun a => { a with renderLabel := false,
                           visible := a.action.id != insertMarkdownCellBelowID })
      = (tb₂.primaryActions.take (hiddenFitCount A₂ 0 w)).map
        (fun a => { a with renderLabel := false,
                           visible := a.action.id != insertMarkdownCellBelowID }) := by
    apply map_congr_of_key _ ?_ _ _ htk
    intro a b ha hb
    show IActionModel.mk a.action a.size (a.action.id != insertMarkdownCellBelowID) false
        = IActionModel.mk b.action b.size (b.action.id != insertMarkdownCellBelowID) false
    rw [ha, hb]
  have h2 : (tb₁.primaryActions.drop (hiddenFitCount A₂ 0 w)).map
        (fun a => { a with renderLabel := false, visible := false })
      = (tb₂.primaryActions.drop (hiddenFitCount A₂ 0 w)).map
        (fun a => { a with renderLabel := false, visible := false }) := by
    apply map_congr_of_key _ ?_ _ _ hdk
    intro a b ha hb
    show IActionModel.mk a.action a.size false false = IActionModel.mk b.action b.size false false
    rw [ha, hb]
  simp only [calcuateWithAlllabelsHidden, hkc, hlenA, h1, h2, hs]

/-- A recomputation of the dynamic strategy only depends on the actions, the
sizes and the pre-existing secondary list — not on the `visible`/`renderLabel`
flags — as long as the candidate prefix is non-empty. -/
theorem dynCalc_congr (tb₁ tb₂ : ToolbarState) (w : Int)
    (hk : tb₁.primaryActions.map modelKey = tb₂.primaryActions.map modelKey)
    (hs : tb₁.secondaryActions = tb₂.secondaryActions)
    (hne : (toolbarCandidates tb₁.primaryActions).length ≠ 0) :
    dynCalculateActions tb₁ w = dynCalculateActions tb₂ w := by
  have hkc := candidates_key_congr _ _ hk
  have hlen := length_eq_of_key _ _ hkc
  have hP₁ : tb₁.primaryActions ≠ [] := by
    intro h
    apply hne
    simp [toolbarCandidates, h]
  have hP₂ : tb₂.primaryActions ≠ [] := by
    intro h
    have hk' := hk
    rw [h] at hk'
    simp only [List.map_nil] at hk'
    exact hP₁ (List.map_eq_nil_iff.mp hk')
  have htw := totalWidth_congr _ _ hkc
  have hbs : breakpointSearch (toolbarCandidates tb₁.primaryActions) w
      = breakpointSearch (toolbarCandidates tb₂.primaryActions) w := by
    unfold breakpointSearch
    exact breakpointGo_congr w _ _ hkc 0 0 (-1)
  rw [dynCalculateActions_of_ne _ _ hP₁, dynCalculateActions_of_ne _ _ hP₂,
    ← hlen, ← htw, ← hbs]
  split_ifs with h0 h1 h2 h3
  · exact absurd h0 hne
  · rw [dynAllFitBranch_congr tb₁ tb₂ hk hs]
  · rw [calcuateWithAlllabelsHidden_congr tb₁ tb₂ _ _ w hk hkc hs]
  · rw [calcuateWithAlllabelsHidden_congr tb₁ tb₂ _ _ w hk hkc hs]
  · rw [dynBreakpointBranch_congr tb₁ tb₂ _ hk hs]

theorem fixedApply_snd_primary (tb : ToolbarState) (k : Nat) :
    (fixedApply tb k).2.primaryActions
      = ((tb.primaryActions.take k).filter
          (fun a => a.action.id != ToggleMenuAction.ID)).map (·.action) := by
  simp only [fixedApply]
  exact filter_map_override (fun a => { a with visible := true }) _ _
    (fun a => rfl) (fun a => rfl) _

theorem fixedApply_snd_secondary (tb : ToolbarState) (k : Nat) :
    (fixedApply tb k).2.secondaryActions
      = ((tb.primaryActions.drop k).filter
          (fun a => a.action.id != ToggleMenuAction.ID)).map (·.action)
        ++ tb.secondaryActions := by
  simp only [fixedApply]
  rw [filter_map_override (fun a => { a with visible := false })
    (fun a => !a.visible && a.action.id != ToggleMenuAction.ID)
    (fun a => a.action.id != ToggleMenuAction.ID)
    (fun a => rfl) (fun a => rfl) (tb.primaryActions.drop k)]

theorem fixedApply_snd_congr (tb₁ tb₂ : ToolbarState) (k : Nat)
    (hk : tb₁.primaryActions.map modelKey = tb₂.primaryActions.map modelKey)
    (hs : tb₁.secondaryActions = tb₂.secondaryActions) :
    (fixedApply tb₁ k).2 = (fixedApply tb₂ k).2 := by
  have htk : (tb₁.primaryActions.take k).map modelKey
      = (tb₂.primaryActions.take k).map modelKey := by
    rw [List.map_take, List.map_take, hk]
  have hdk : (tb₁.primaryActions.drop k).map modelKey
      = (tb₂.primaryActions.drop k).map modelKey := by
    rw [List.map_drop, List.map_drop, hk]
  have h1 := filter_action_map_congr (fun a => a.action.id != ToggleMenuAction.ID)
    (fun a b h => by
      show (a.action.id != ToggleMenuAction.ID) = (b.action.id != ToggleMenuAction.ID)
      rw [h]) _ _ htk
  have h2 := filter_action_map_congr (fun a => a.action.id != ToggleMenuAction.ID)
    (fun a b h => by
      show (a.action.id != ToggleMenuAction.ID) = (b.action.id != ToggleMenuAction.ID)
      rw [h]) _ _ hdk
  have hp : (fixedApply tb₁ k).2.primaryActions = (fixedApply tb₂ k).2.primaryActions := by
    rw [fixedApply_snd_primary, fixedApply_snd_primary, h1]
  have hsec : (fixedApply tb₁ k).2.secondaryActions
      = (fixedApply tb₂ k).2.secondaryActions := by
    rw [fixedApply_snd_secondary, fixedApply_snd_secondary, h2, hs]
  cases hA : (fixedApply tb₁ k).2
  cases hB : (fixedApply tb₂ k).2
  rw [hA, hB] at hp hsec
  simp only at hp hsec
  rw [hp, hsec]

theorem calculateFixedActions_snd_congr (tb₁ tb₂ : ToolbarState) (w : Int)
    (hk : tb₁.primaryActions.map modelKey = tb₂.primaryActions.map modelKey)
    (hs : tb₁.secondaryActions = tb₂.secondaryActions) :
    (calculateFixedActions tb₁ w).map (fun y => y.2)
      = (calculateFixedActions tb₂ w).map (fun y => y.2) := by
  by_cases hP₁ : tb₁.primaryActions = []
  · have hP₂ : tb₂.primaryActions = [] := by
      have hk' := hk
      rw [hP₁] at hk'
      simp only [List.map_nil] at hk'
      exact List.map_eq_nil_iff.mp hk'.symm
    rw [calculateFixedActions_of_nil _ _ hP₁, calculateFixedActions_of_nil _ _ hP₂]
  · have hP₂ : tb₂.primaryActions ≠ [] := by
      intro h
      have hk' := hk
      rw [h] at hk'
      simp only [List.map_nil] at hk'
      exact hP₁ (List.map_eq_nil_iff.mp hk')
    rw [calculateFixedActions_of_ne _ _ hP₁, calculateFixedActions_of_ne _ _ hP₂]
    simp only [Option.map_some']
    have hkc := candidates_key_congr _ _ hk
    have hkk : fixedFitCount (toolbarCandidates tb₁.primaryActions) 0 w
        = fixedFitCount (toolbarCandidates tb₂.primaryActions) 0 w :=
      fixedFitCount_congr _ _ hkc 0 w
    rw [hkk, fixedApply_snd_congr tb₁ tb₂ _ hk hs]

/-- C7: for every strategy, every toolbar state and every width, calling
`calculateActions` a second time — on the state whose `visible`/`renderLabel`
flags were mutated by the first call — at the same width yields the same
primary/secondary partition as the first call. -/
theorem C7_idempotent (tb : ToolbarState) (w : Int) :
    idempotentAt FixedLabelStrategy.calculateActions tb w ∧
    idempotentAt FixedLabellessStrategy.calculateActions tb w ∧
    idempotentAt dynCalculateActions tb w := by
  have hfixed : idempotentAt calculateFixedActions tb w := by
    unfold idempotentAt
    split
    · trivial
    · rename_i x heq
      by_cases hP : tb.primaryActions = []
      · rw [calculateFixedActions_of_nil _ _ hP] at heq
        exact Option.noConfusion heq
      · rw [calculateFixedActions_of_ne _ _ hP] at heq
        have hx := Option.some.inj heq
        have hk1 : x.1.primaryActions.map modelKey = tb.primaryActions.map modelKey := by
          rw [← hx]
          exact fixedApply_fst_key tb _
        have hs1 : x.1.secondaryActions = tb.secondaryActions := by
          rw [← hx]
          exact rfl
        rw [calculateFixedActions_snd_congr x.1 tb w hk1 hs1,
          calculateFixedActions_of_ne _ _ hP]
        simp only [Option.map_some']
        rw [hx]
  refine ⟨hfixed, hfixed, ?_⟩
  unfold idempotentAt
  split
  · trivial
  · rename_i x heq
    by_cases hP : tb.primaryActions = []
    · rw [dynCalculateActions_of_nil _ _ hP] at heq
      exact Option.noConfusion heq
    · have heq0 := heq
      rw [dynCalculateActions_of_ne _ _ hP] at heq
      split_ifs at heq with h0 h1 h2 h3
      · -- empty-candidate branch: the state is returned unchanged
        have hx := Option.some.inj heq
        have hx1 : x.1 = tb := by
          rw [← hx]
          exact rfl
        rw [hx1, heq0]
        simp only [Option.map_some']
      · -- all-fit branch
        have hx := Option.some.inj heq
        have hk1 : x.1.primaryActions.map modelKey = tb.primaryActions.map modelKey := by
          rw [← hx]
          exact dynAllFitBranch_fst_key tb
        have hs1 : x.1.secondaryActions = tb.secondaryActions := by
          rw [← hx]
          exact rfl
        have hne1 : (toolbarCandidates x.1.primaryActions).length ≠ 0 := by
          rw [length_eq_of_key _ _ (candidates_key_congr _ _ hk1)]
          exact h0
        rw [dynCalc_congr x.1 tb w hk1 hs1 hne1, heq0]
        simp only [Option.map_some']
      · -- full-degrade branch (icons overflow)
        have hx := Option.some.inj heq
        have hk1 : x.1.primaryActions.map modelKey = tb.primaryActions.map modelKey := by
          rw [← hx]
          exact hidden_fst_key tb _ w
        have hs1 : x.1.secondaryActions = tb.secondaryActions := by
          rw [← hx]
          exact rfl
        have hne1 : (toolbarCandidates x.1.primaryActions).length ≠ 0 := by
          rw [length_eq_of_key _ _ (candidates_key_congr _ _ hk1)]
          exact h0
        rw [dynCalc_congr x.1 tb w hk1 hs1 hne1, heq0]
        simp only [Option.map_some']
      · -- full-degrade branch (no breakpoint found)
        have hx := Option.some.inj heq
        have hk1 : x.1.primaryActions.map modelKey = tb.primaryActions.map modelKey := by
          rw [← hx]
          exact hidden_fst_key tb _ w
        have hs1 : x.1.secondaryActions = tb.secondaryActions := by
          rw [← hx]
          exact rfl
        have hne1 : (toolbarCandidates x.1.primaryActions).length ≠ 0 := by
          rw [length_eq_of_key _ _ (candidates_key_congr _ _ hk1)]
          exact h0
        rw [dynCalc_congr x.1 tb w hk1 hs1 hne1, heq0]
        simp only [Option.map_some']
      · -- breakpoint branch
        have hx := Option.some.inj heq
        have hk1 : x.1.primaryActions.map modelKey = tb.primaryActions.map modelKey := by
          rw [← hx]
          exact dynBreakpointBranch_fst_key tb _
        have hs1 : x.1.secondaryActions = tb.secondaryActions := by
          rw [← hx]
          exact rfl
        have hne1 : (toolbarCandidates x.1.primaryActions).length ≠ 0 := by
          rw [length_eq_of_key _ _ (candidates_key_congr _ _ hk1)]
          exact h0
        rw [dynCalc_congr x.1 tb w hk1 hs1 hne1, heq0]
        simp only [Option.map_some']

theorem C10_witness :
    getStatusBarItemsForDocument ([provW10star] ++ provW10other :: []) "doc" "w10.vt"
      = getStatusBarItemsForDocument ([provW10star] ++ []) "doc" "w10.vt" ∧
    getStatusBarItemsForDocument ([provW10other] ++ provW10star :: []) "doc" "w10.vt"
      = getStatusBarItemsForDocument [provW10other] "doc" "w10.vt"
          ++ provideForDocument provW10star "doc"
            :: getStatusBarItemsForDocument [] "doc" "w10.vt" :=
  ⟨(C10_viewtype_selection [provW10star] [] provW10other "doc" "w10.vt").1 (by decide),
   (C10_viewtype_selection [provW10other] [] provW10star "doc" "w10.vt").2.1 (Or.inr rfl)⟩

end NotebookToolbar
